import Mathlib

/-!
Shallow embedding of the geospatial grid analysis engine of the
antropoceno-energetico repository, together with proofs checking the
specification's claims against the code.

Sources embedded:
- Experimentos/2_Telecomunicaciones/scripts/analisis_rf_clima.py
  (calculate_rf_power_density, analyze_correlation)
- Codigo/visualizacion/python/utils.py
  (calculate_statistics, extract_time_series nearest-neighbor lookup,
   calculate_spatial_gradient)
- Codigo/visualizacion/python/dashboard_avanzado.py
  (create_heatmap_correlation, longitude conversion to unsigned-360)
- Codigo/analisis/python/comparacion_urbano_rural_corregido.py
  (longitude conversion back to signed-180)

Numeric values carried by the arrays are modelled as rationals; a float
that may be NaN is modelled by the inductive NFloat.  Exceptions raised
by numpy are modelled by the Except monad with the NPError inductive.
-/

/-- A floating-point cell value that may be NaN (missing). -/
inductive NFloat where
  | nan : NFloat
  | val (q : ℚ) : NFloat
deriving DecidableEq, Repr

/-- A real-valued result that may be NaN, used for correlation
coefficients, whose exact value involves a square root. -/
inductive RFloat where
  | nan : RFloat
  | val (x : ℝ) : RFloat

/-- Kinds of exceptions relevant to the modelled code paths.
valueError and zeroDivisionError are raised by numpy reductions and
arange; invalidConfigError and emptyDataError are the error kinds named
by the specification, which no modelled code path ever produces. -/
inductive NPError where
  | valueError : NPError
  | zeroDivisionError : NPError
  | invalidConfigError : NPError
  | emptyDataError : NPError
deriving DecidableEq, Repr

/-!
Nearest-neighbor resolution.

Both analisis_rf_clima.py (lines 66-67) and utils.py (lines 83-84)
locate the grid cell for a query coordinate with
  idx = np.argmin(np.abs(axis - query))
independently on each 1-D axis.  np.argmin returns the index of the
first occurrence of the minimum value.
-/

/-- Index of the first element of the list minimizing the absolute
difference to the query q; 0 on the empty list (numpy raises there,
callers track nonemptiness separately). -/
def argminAbs (q : ℚ) : List ℚ → ℕ
  | [] => 0
  | [_] => 0
  | x :: y :: ys =>
    let r := argminAbs q (y :: ys)
    if |x - q| ≤ |(y :: ys).getD r 0 - q| then 0 else r + 1

/-- Per-axis nearest-neighbor resolution used by calculate_rf_power_density
and extract_time_series: independent argmin of absolute differences on
the latitude and longitude axes. -/
def resolve (lats lons : List ℚ) (lat lon : ℚ) : ℕ × ℕ :=
  (argminAbs lat lats, argminAbs lon lons)

/-!
Rasterizer (calculate_rf_power_density, analisis_rf_clima.py lines 50-72).

The grid axes are
  lats = np.arange(-90, 90 + grid_resolution, grid_resolution)
  lons = np.arange(-180, 180 + grid_resolution, grid_resolution)
and the density matrix starts as np.zeros((len(lats), len(lons))); each
transmitter row adds power_w / (1.0 * 1e6) into the cell found by the
per-axis argmin, so the accumulated point value of a row is its power
divided by the nominal 1 km2 footprint in m2.
-/

/-- One row of the RF inventory table (columns irrelevant to the engine,
such as frequency and height, are omitted). -/
structure Row where
  latitude : ℚ
  longitude : ℚ
  power_w : ℚ
deriving DecidableEq, Repr

/-- A point source as consumed by the binning accumulator: coordinates
plus the value added into the resolved cell. -/
structure PointQ where
  lat : ℚ
  lon : ℚ
  value : ℚ
deriving DecidableEq, Repr

/-- The output of calculate_rf_power_density: the two coordinate axes and
the dense power-density matrix (row-major, latitude outer). -/
structure Raster where
  lats : List ℚ
  lons : List ℚ
  density : List (List ℚ)
deriving DecidableEq, Repr

/-- Model of np.arange(start, stop, step) for nonzero step: the element
count is max 0 (ceil ((stop - start) / step)). -/
def arangeQ (start stop step : ℚ) : List ℚ :=
  (List.range (Int.toNat ⌈(stop - start) / step⌉)).map
    (fun i : ℕ => start + (i : ℚ) * step)

/-- Read cell (i, j) of a dense matrix, 0 outside. -/
def get2 (d : List (List ℚ)) (i j : ℕ) : ℚ :=
  (d.getD i []).getD j 0

/-- Add p into cell (i, j) of a dense matrix (the matrix counterpart of
power_density[lat_idx, lon_idx] += p). -/
def addAt (d : List (List ℚ)) (i j : ℕ) (p : ℚ) : List (List ℚ) :=
  d.set i ((d.getD i []).set j ((d.getD i []).getD j 0 + p))

/-- Binning accumulator of section 4.3 of the design: starting from an
all-zero matrix shaped by the axes, add each point value into its
nearest cell. -/
def rasterize (lats lons : List ℚ) (pts : List PointQ) : List (List ℚ) :=
  pts.foldl
    (fun d p => addAt d (argminAbs p.lat lats) (argminAbs p.lon lons) p.value)
    (List.replicate lats.length (List.replicate lons.length 0))

/-- Embedding of calculate_rf_power_density.  A zero resolution makes
np.arange raise ZeroDivisionError; if the chosen resolution makes an
axis come out empty, the argmin of the first row (if any) raises
ValueError; no other validation is performed. -/
def calculate_rf_power_density (rows : List Row) (grid_resolution : ℚ) :
    Except NPError Raster :=
  if grid_resolution = 0 then .error .zeroDivisionError
  else
    let lats := arangeQ (-90) (90 + grid_resolution) grid_resolution
    let lons := arangeQ (-180) (180 + grid_resolution) grid_resolution
    if (lats.isEmpty ∨ lons.isEmpty) ∧ rows ≠ [] then .error .valueError
    else
      .ok ⟨lats, lons,
        rasterize lats lons
          (rows.map (fun r => ⟨r.latitude, r.longitude, r.power_w / 1000000⟩))⟩

/-- Total of all cells of a dense matrix. -/
def gridSum (d : List (List ℚ)) : ℚ :=
  (d.map List.sum).sum

/-!
Correlation (analyze_correlation, analisis_rf_clima.py lines 122-153, and
create_heatmap_correlation, dashboard_avanzado.py lines 286-299).

Both flatten two fields, drop the indices where either value is NaN, and
feed the surviving pairs to np.corrcoef.  With centered sums
Sxx, Syy, Sxy over the valid pairs, np.corrcoef yields
Sxy / (sqrt Sxx * sqrt Syy); when either variance vanishes the division
is 0/0, which numpy propagates as NaN (np.clip leaves NaN untouched).
The regression, mean and std entries of the returned dictionary of
analyze_correlation are omitted as irrelevant to the claims.
-/

/-- Elementwise NaN-pair removal: an index survives exactly when both
series hold a number there. -/
def validPairs (a b : List NFloat) : List (ℚ × ℚ) :=
  (a.zip b).filterMap
    (fun p => match p.1, p.2 with
      | .val x, .val y => some (x, y)
      | _, _ => none)

/-- Mean of the first components of a pair list. -/
def meanFst (ps : List (ℚ × ℚ)) : ℚ :=
  (ps.map Prod.fst).sum / ps.length

/-- Mean of the second components of a pair list. -/
def meanSnd (ps : List (ℚ × ℚ)) : ℚ :=
  (ps.map Prod.snd).sum / ps.length

/-- Centered sum of squares of the first components. -/
def sxx (ps : List (ℚ × ℚ)) : ℚ :=
  ∑ i ∈ Finset.range ps.length, ((ps.getD i (0, 0)).1 - meanFst ps) ^ 2

/-- Centered sum of squares of the second components. -/
def syy (ps : List (ℚ × ℚ)) : ℚ :=
  ∑ i ∈ Finset.range ps.length, ((ps.getD i (0, 0)).2 - meanSnd ps) ^ 2

/-- Centered sum of cross products. -/
def sxy (ps : List (ℚ × ℚ)) : ℚ :=
  ∑ i ∈ Finset.range ps.length,
    ((ps.getD i (0, 0)).1 - meanFst ps) * ((ps.getD i (0, 0)).2 - meanSnd ps)

/-- Off-diagonal entry of np.corrcoef on the paired data: NaN when either
series is constant (zero centered variance), otherwise the Pearson
coefficient. -/
noncomputable def npPearson (ps : List (ℚ × ℚ)) : RFloat :=
  if sxx ps = 0 ∨ syy ps = 0 then .nan
  else .val ((sxy ps : ℝ) / (Real.sqrt (sxx ps) * Real.sqrt (syy ps)))

/-- Claim-relevant part of the dictionary returned by analyze_correlation. -/
structure CorrResult where
  correlation : RFloat
  n_points : ℕ

/-- Embedding of analyze_correlation: drop NaN pairs, return None below
10 valid pairs, otherwise the np.corrcoef coefficient and the count. -/
noncomputable def analyze_correlation (a b : List NFloat) :
    Option CorrResult :=
  let ps := validPairs a b
  if ps.length < 10 then none
  else some ⟨npPearson ps, ps.length⟩

/-- One entry of the correlation matrix of create_heatmap_correlation:
numeric only when np.sum(mask) > 10, NaN otherwise. -/
noncomputable def corrEntry (a b : List NFloat) : RFloat :=
  let ps := validPairs a b
  if 10 < ps.length then npPearson ps else .nan

/-- Embedding of create_heatmap_correlation: None below two variables,
otherwise the full pairwise matrix of corrEntry values. -/
noncomputable def create_heatmap_correlation (fields : List (List NFloat)) :
    Option (List (List RFloat)) :=
  if fields.length < 2 then none
  else some (fields.map (fun a => fields.map (fun b => corrEntry a b)))

/-!
Summary statistics (calculate_statistics, utils.py lines 48-77): flatten
the array, drop NaNs, then build the record.  On an empty valid set
np.mean and np.std only warn and yield NaN, but np.min raises
ValueError (zero-size reduction without identity), so the call as a
whole raises ValueError, and never pandas' EmptyDataError.
-/

/-- Mean of a rational list (np.mean; division by zero yields 0 here
where numpy would yield NaN, reached only on the error path). -/
def npMean (l : List ℚ) : ℚ := l.sum / l.length

/-- Population variance (np.std squared, ddof = 0). -/
def npVar (l : List ℚ) : ℚ :=
  ((l.map (fun v => (v - npMean l) ^ 2)).sum) / l.length

/-- Standard deviation, np.std. -/
noncomputable def npStd (l : List ℚ) : ℝ := Real.sqrt (npVar l)

/-- Minimum of a list (np.min on a nonempty array). -/
def npMinQ (l : List ℚ) : ℚ := l.foldr min (l.getD 0 0)

/-- Maximum of a list (np.max on a nonempty array). -/
def npMaxQ (l : List ℚ) : ℚ := l.foldr max (l.getD 0 0)

/-- Linear-interpolation percentile, np.percentile with the default
method: position q * (n - 1) / 100 in the sorted data, interpolating
between the two bracketing order statistics. -/
def percentileQ (l : List ℚ) (q : ℚ) : ℚ :=
  let s := l.mergeSort (fun a b => decide (a ≤ b))
  let pos := q * ((s.length : ℚ) - 1) / 100
  let i := Int.toNat ⌊pos⌋
  s.getD i 0 + (pos - (i : ℚ)) * (s.getD (i + 1) (s.getD i 0) - s.getD i 0)

/-- The record built by calculate_statistics. -/
structure StatsRecord where
  mean : ℚ
  std : ℝ
  min : ℚ
  max : ℚ
  median : ℚ
  q25 : ℚ
  q75 : ℚ
  count : ℕ

/-- Flatten a 2-D field and drop the NaN entries, the first two steps of
calculate_statistics. -/
def validValues (values : List (List NFloat)) : List ℚ :=
  (values.flatten).filterMap
    (fun v => match v with | .nan => none | .val q => some q)

/-- Embedding of calculate_statistics on the flattened field (the
optional region selection happens upstream of the modelled part). -/
noncomputable def calculate_statistics (values : List (List NFloat)) :
    Except NPError StatsRecord :=
  let valid := validValues values
  if valid = [] then .error .valueError
  else
    .ok ⟨npMean valid, npStd valid, npMinQ valid, npMaxQ valid,
      percentileQ valid 50, percentileQ valid 25, percentileQ valid 75,
      valid.length⟩

/-!
Spatial gradients (calculate_spatial_gradient, utils.py lines 101-118):
np.gradient along each axis with the axis coordinates as spacing.  For
interior points with steps hd = x i - x (i-1) and hs = x (i+1) - x i,
np.gradient computes
  (hs^2 * f (i+1) + (hd^2 - hs^2) * f i - hd^2 * f (i-1))
    / (hs * hd * (hd + hs)),
and one-sided first differences at the two boundaries.
-/

/-- Entry i of np.gradient of samples f against coordinates x. -/
def gradAt (f x : List ℚ) (i : ℕ) : ℚ :=
  if i = 0 then
    (f.getD 1 0 - f.getD 0 0) / (x.getD 1 0 - x.getD 0 0)
  else if i = f.length - 1 then
    (f.getD i 0 - f.getD (i - 1) 0) / (x.getD i 0 - x.getD (i - 1) 0)
  else
    (((x.getD (i + 1) 0 - x.getD i 0) ^ 2) * f.getD (i + 1) 0 +
        ((x.getD i 0 - x.getD (i - 1) 0) ^ 2 -
          (x.getD (i + 1) 0 - x.getD i 0) ^ 2) * f.getD i 0 -
        ((x.getD i 0 - x.getD (i - 1) 0) ^ 2) * f.getD (i - 1) 0) /
      ((x.getD (i + 1) 0 - x.getD i 0) * (x.getD i 0 - x.getD (i - 1) 0) *
        ((x.getD i 0 - x.getD (i - 1) 0) + (x.getD (i + 1) 0 - x.getD i 0)))

/-- Full 1-D np.gradient. -/
def npGradient (f x : List ℚ) : List ℚ :=
  (List.range f.length).map (gradAt f x)

/-- Conversion of a signed-180 longitude to the unsigned-360
convention, dashboard_avanzado.py lines 110-111: nonnegative values are
kept, negative values get 360 added. -/
def lon_to360 (x : ℚ) : ℚ := if 0 ≤ x then x else x + 360

/-- Conversion of an unsigned-360 longitude back to the signed-180
convention, comparacion_urbano_rural_corregido.py line 88. -/
def lon_to180 (y : ℚ) : ℚ := if y ≤ 180 then y else y - 360


/-!
Helper theorems about the embedded operations, followed by the claim
theorems.
-/

theorem argminAbs_lt_length (q : ℚ) (l : List ℚ) (h : l ≠ []) :
    argminAbs q l < l.length := by
  induction l with
  | nil => exact absurd rfl h
  | cons x xs ih =>
    cases xs with
    | nil => simp [argminAbs]
    | cons y ys =>
      simp only [argminAbs]
      split
      · simp
      · have := ih (by simp)
        simpa using Nat.succ_lt_succ this

theorem argminAbs_min (q : ℚ) (l : List ℚ) :
    ∀ k, k < l.length →
      |l.getD (argminAbs q l) 0 - q| ≤ |l.getD k 0 - q| := by
  induction l with
  | nil => intro k hk; simp at hk
  | cons x xs ih =>
    cases xs with
    | nil =>
      intro k hk
      have hk0 : k = 0 := by simpa using Nat.lt_one_iff.mp (by simpa using hk)
      subst hk0
      simp [argminAbs]
    | cons y ys =>
      intro k hk
      simp only [argminAbs]
      split
      · rename_i hle
        cases k with
        | zero => simp
        | succ k =>
          have hk' : k < (y :: ys).length := by simpa using hk
          have := ih k hk'
          calc |(x :: y :: ys).getD 0 0 - q| = |x - q| := by simp
            _ ≤ |(y :: ys).getD (argminAbs q (y :: ys)) 0 - q| := hle
            _ ≤ |(y :: ys).getD k 0 - q| := this
            _ = |(x :: y :: ys).getD (k + 1) 0 - q| := by simp
      · rename_i hgt
        push_neg at hgt
        cases k with
        | zero =>
          simpa using le_of_lt hgt
        | succ k =>
          have hk' : k < (y :: ys).length := by simpa using hk
          simpa using ih k hk'

theorem argminAbs_first (q : ℚ) (l : List ℚ) :
    ∀ k, k < l.length →
      |l.getD k 0 - q| ≤ |l.getD (argminAbs q l) 0 - q| →
      argminAbs q l ≤ k := by
  induction l with
  | nil => intro k hk; simp at hk
  | cons x xs ih =>
    cases xs with
    | nil =>
      intro k _ _
      simp [argminAbs]
    | cons y ys =>
      intro k hk hle
      simp only [argminAbs] at hle ⊢
      split
      · exact Nat.zero_le k
      · rename_i hgt
        push_neg at hgt
        split at hle
        · rename_i h'; exact absurd h' (not_le_of_lt hgt)
        · cases k with
          | zero =>
            exfalso
            have hle0 :
                |x - q| ≤ |(y :: ys).getD (argminAbs q (y :: ys)) 0 - q| := by
              simpa using hle
            exact absurd hle0 (not_le_of_lt hgt)
          | succ k =>
            have hk' : k < (y :: ys).length := by simpa using hk
            have hle' :
                |(y :: ys).getD k 0 - q| ≤
                  |(y :: ys).getD (argminAbs q (y :: ys)) 0 - q| := by
              simpa using hle
            exact Nat.succ_le_succ (ih k hk' hle')

theorem list_sum_set (l : List ℚ) (j : ℕ) (x : ℚ) (hj : j < l.length) :
    (l.set j x).sum = l.sum - l.getD j 0 + x := by
  induction l generalizing j with
  | nil => simp at hj
  | cons a as ih =>
    cases j with
    | zero => simp [List.set]; ring
    | succ j =>
      have hj' : j < as.length := by simpa using hj
      simp only [List.set, List.sum_cons, List.getD_cons_succ, ih j hj']
      ring

theorem gridSum_addAt (d : List (List ℚ)) (i j : ℕ) (p : ℚ)
    (hi : i < d.length) (hj : j < (d.getD i []).length) :
    gridSum (addAt d i j p) = gridSum d + p := by
  unfold gridSum addAt
  have hmap : ((d.set i ((d.getD i []).set j ((d.getD i []).getD j 0 + p))).map
      List.sum) =
      (d.map List.sum).set i (((d.getD i []).set j ((d.getD i []).getD j 0 + p)).sum) := by
    rw [List.map_set]
  rw [hmap]
  have hlen : i < (d.map List.sum).length := by simpa using hi
  rw [list_sum_set _ i _ hlen]
  rw [list_sum_set _ j _ hj]
  have hget : (d.map List.sum).getD i 0 = (d.getD i []).sum := by
    rw [List.getD_eq_getElem?_getD, List.getD_eq_getElem?_getD,
      List.getElem?_map]
    rw [List.getElem?_eq_getElem hi]
    simp
  rw [hget]
  ring

theorem listGetD_set_self {α : Type} (l : List α) (i : ℕ) (a d : α)
    (h : i < l.length) : (l.set i a).getD i d = a := by
  rw [List.getD_eq_getElem?_getD, List.getElem?_set_self h, Option.getD_some]

theorem listGetD_set_ne {α : Type} (l : List α) {i j : ℕ} (h : i ≠ j)
    (a d : α) : (l.set i a).getD j d = l.getD j d := by
  rw [List.getD_eq_getElem?_getD, List.getElem?_set_ne h,
    ← List.getD_eq_getElem?_getD]

theorem listSet_oob {α : Type} (l : List α) {i : ℕ} (h : l.length ≤ i)
    (a : α) : l.set i a = l := by
  induction l generalizing i with
  | nil => rfl
  | cons x xs ih =>
    cases i with
    | zero => simp at h
    | succ i =>
      simp only [List.set]
      rw [ih (by simpa using h)]

theorem get2_addAt_same (d : List (List ℚ)) (i j : ℕ) (p : ℚ)
    (hi : i < d.length) (hj : j < (d.getD i []).length) :
    get2 (addAt d i j p) i j = get2 d i j + p := by
  unfold get2 addAt
  rw [listGetD_set_self d i _ [] hi, listGetD_set_self _ j _ 0 hj]

theorem get2_addAt_other (d : List (List ℚ)) (i j : ℕ) (p : ℚ) (i' j' : ℕ)
    (h : ¬(i' = i ∧ j' = j)) :
    get2 (addAt d i j p) i' j' = get2 d i' j' := by
  unfold get2 addAt
  by_cases hii : i = i'
  · subst hii
    have hjj : j ≠ j' := by
      intro hj; exact h ⟨rfl, hj.symm⟩
    by_cases hlen : i < d.length
    · rw [listGetD_set_self d i _ [] hlen, listGetD_set_ne _ hjj]
    · push_neg at hlen
      rw [listSet_oob d hlen]
  · rw [listGetD_set_ne d hii]

theorem get2_zeros (nlat nlon i j : ℕ) :
    get2 (List.replicate nlat (List.replicate nlon (0 : ℚ))) i j = 0 := by
  unfold get2
  rw [List.getD_eq_getElem?_getD (List.replicate nlat (List.replicate nlon 0)) i [],
    List.getElem?_replicate]
  split
  · rw [Option.getD_some, List.getD_eq_getElem?_getD, List.getElem?_replicate]
    split <;> simp
  · simp

theorem addAt_length (d : List (List ℚ)) (i j : ℕ) (p : ℚ) :
    (addAt d i j p).length = d.length := by
  unfold addAt
  exact List.length_set d i _

theorem addAt_row_length (d : List (List ℚ)) (i j : ℕ) (p : ℚ) (k : ℕ) :
    ((addAt d i j p).getD k []).length = (d.getD k []).length := by
  unfold addAt
  by_cases hik : i = k
  · subst hik
    by_cases hlen : i < d.length
    · rw [listGetD_set_self d i _ [] hlen, List.length_set]
    · push_neg at hlen
      rw [listSet_oob d hlen]
  · rw [listGetD_set_ne d hik]

theorem pairwise_getD_lt (l : List ℚ) (hs : List.Pairwise (· < ·) l)
    {i j : ℕ} (hij : i < j) (hj : j < l.length) :
    l.getD i 0 < l.getD j 0 := by
  have hi : i < l.length := lt_trans hij hj
  rw [List.getD_eq_getElem l 0 hi, List.getD_eq_getElem l 0 hj]
  exact List.pairwise_iff_getElem.mp hs i j hi hj hij

theorem argminAbs_clamp_low (q : ℚ) (l : List ℚ) (hne : l ≠ [])
    (hs : List.Pairwise (· < ·) l) (hq : q ≤ l.getD 0 0) :
    argminAbs q l = 0 := by
  have hlen : 0 < l.length := List.length_pos.mpr hne
  have ha : argminAbs q l < l.length := argminAbs_lt_length q l hne
  have h0a : l.getD 0 0 ≤ l.getD (argminAbs q l) 0 := by
    rcases Nat.eq_zero_or_pos (argminAbs q l) with h | h
    · rw [h]
    · exact le_of_lt (pairwise_getD_lt l hs h ha)
  have habs : |l.getD 0 0 - q| ≤ |l.getD (argminAbs q l) 0 - q| := by
    rw [abs_of_nonneg (by linarith), abs_of_nonneg (by linarith)]
    linarith
  exact Nat.le_zero.mp (argminAbs_first q l 0 hlen habs)

theorem argminAbs_clamp_high (q : ℚ) (l : List ℚ) (hne : l ≠ [])
    (hs : List.Pairwise (· < ·) l) (hq : l.getD (l.length - 1) 0 ≤ q) :
    argminAbs q l = l.length - 1 := by
  have hlen : 0 < l.length := List.length_pos.mpr hne
  have hlast : l.length - 1 < l.length := by omega
  have ha : argminAbs q l < l.length := argminAbs_lt_length q l hne
  by_contra hne'
  have halt : argminAbs q l < l.length - 1 := by omega
  have hlt : l.getD (argminAbs q l) 0 < l.getD (l.length - 1) 0 :=
    pairwise_getD_lt l hs halt hlast
  have hmin : |l.getD (argminAbs q l) 0 - q| ≤ |l.getD (l.length - 1) 0 - q| :=
    argminAbs_min q l (l.length - 1) hlast
  rw [abs_of_nonpos (by linarith), abs_of_nonpos (by linarith)] at hmin
  linarith

theorem arangeQ_ne_nil (start stop step : ℚ) (h : 0 < step)
    (h2 : start < stop) : arangeQ start stop step ≠ [] := by
  unfold arangeQ
  have hpos : 0 < ⌈(stop - start) / step⌉ :=
    Int.ceil_pos.mpr (div_pos (by linarith) h)
  intro hcon
  have hlen := congrArg List.length hcon
  rw [List.length_map, List.length_range, List.length_nil] at hlen
  omega

theorem foldl_addAt_sum (lats lons : List ℚ) (hlat : lats ≠ [])
    (hlon : lons ≠ []) (pts : List PointQ) :
    ∀ d : List (List ℚ), d.length = lats.length →
      (∀ k, k < d.length → (d.getD k []).length = lons.length) →
      gridSum (pts.foldl
        (fun d p =>
          addAt d (argminAbs p.lat lats) (argminAbs p.lon lons) p.value) d) =
        gridSum d + (pts.map PointQ.value).sum := by
  induction pts with
  | nil => intro d _ _; simp
  | cons p pts ih =>
    intro d hdl hdr
    have hi : argminAbs p.lat lats < d.length := by
      rw [hdl]; exact argminAbs_lt_length _ _ hlat
    have hj : argminAbs p.lon lons < (d.getD (argminAbs p.lat lats) []).length := by
      rw [hdr _ hi]; exact argminAbs_lt_length _ _ hlon
    have hstep := gridSum_addAt d (argminAbs p.lat lats)
      (argminAbs p.lon lons) p.value hi hj
    simp only [List.foldl_cons, List.map_cons, List.sum_cons]
    rw [ih _ (by rw [addAt_length, hdl])
      (fun k hk => by
        rw [addAt_row_length]
        exact hdr k (by rwa [addAt_length] at hk))]
    rw [hstep]
    ring

theorem rasterize_gridSum (lats lons : List ℚ) (hlat : lats ≠ [])
    (hlon : lons ≠ []) (pts : List PointQ) :
    gridSum (rasterize lats lons pts) = (pts.map PointQ.value).sum := by
  unfold rasterize
  rw [foldl_addAt_sum lats lons hlat hlon pts _
    (by rw [List.length_replicate])
    (fun k hk => by
      rw [List.length_replicate] at hk
      rw [List.getD_eq_getElem?_getD, List.getElem?_replicate, if_pos hk,
        Option.getD_some, List.length_replicate])]
  have hz : gridSum (List.replicate lats.length
      (List.replicate lons.length (0 : ℚ))) = 0 := by
    unfold gridSum
    rw [List.map_replicate, List.sum_replicate, List.sum_replicate]
    simp
  rw [hz, zero_add]

theorem sum_map_div (rows : List Row) (c : ℚ) :
    (rows.map (fun r => r.power_w / c)).sum = (rows.map Row.power_w).sum / c := by
  induction rows with
  | nil => simp
  | cons r rows ih => simp [ih, add_div]

theorem npPearson_bound (ps : List (ℚ × ℚ)) (hx : sxx ps ≠ 0)
    (hy : syy ps ≠ 0) :
    ∃ c : ℝ, npPearson ps = .val c ∧ -1 ≤ c ∧ c ≤ 1 := by
  have hxpos : (0 : ℚ) < sxx ps :=
    lt_of_le_of_ne (Finset.sum_nonneg fun i _ => sq_nonneg _) (Ne.symm hx)
  have hypos : (0 : ℚ) < syy ps :=
    lt_of_le_of_ne (Finset.sum_nonneg fun i _ => sq_nonneg _) (Ne.symm hy)
  have hcs : (sxy ps) ^ 2 ≤ sxx ps * syy ps := by
    unfold sxx syy sxy
    exact Finset.sum_mul_sq_le_sq_mul_sq _ _ _
  have hXpos : (0 : ℝ) < (sxx ps : ℝ) := by exact_mod_cast hxpos
  have hYpos : (0 : ℝ) < (syy ps : ℝ) := by exact_mod_cast hypos
  have hcsR : ((sxy ps : ℝ)) ^ 2 ≤ (sxx ps : ℝ) * (syy ps : ℝ) := by
    exact_mod_cast hcs
  have hden : 0 < Real.sqrt (sxx ps) * Real.sqrt (syy ps) :=
    mul_pos (Real.sqrt_pos.mpr hXpos) (Real.sqrt_pos.mpr hYpos)
  have habs : |(sxy ps : ℝ)| ≤ Real.sqrt (sxx ps) * Real.sqrt (syy ps) := by
    rw [← Real.sqrt_sq_eq_abs, ← Real.sqrt_mul hXpos.le]
    exact Real.sqrt_le_sqrt hcsR
  refine ⟨(sxy ps : ℝ) / (Real.sqrt (sxx ps) * Real.sqrt (syy ps)), ?_, ?_, ?_⟩
  · unfold npPearson
    rw [if_neg (by push_neg; exact ⟨hx, hy⟩)]
  · rw [neg_le, ← neg_div]
    exact (div_le_one hden).mpr (le_trans (neg_le_abs _) habs)
  · exact (div_le_one hden).mpr (le_trans (le_abs_self _) habs)

/-- C1: rasterization is additive in point values: two point sources with
values 5 and 7 whose coordinates resolve to the same grid cell leave
exactly 12 in that cell, and every cell to which no point source
resolves holds exactly 0. -/
theorem C1_rasterization_additive (lats lons : List ℚ) (p1 p2 : PointQ)
    (hlat : lats ≠ []) (hlon : lons ≠ [])
    (hv1 : p1.value = 5) (hv2 : p2.value = 7)
    (hsame : resolve lats lons p1.lat p1.lon =
      resolve lats lons p2.lat p2.lon) :
    get2 (rasterize lats lons [p1, p2]) (argminAbs p1.lat lats)
      (argminAbs p1.lon lons) = 12 ∧
    ∀ i j, i < lats.length → j < lons.length →
      ¬(i = argminAbs p1.lat lats ∧ j = argminAbs p1.lon lons) →
      get2 (rasterize lats lons [p1, p2]) i j = 0 := by
  have ha : argminAbs p2.lat lats = argminAbs p1.lat lats := by
    have := congrArg Prod.fst hsame
    simpa [resolve] using this.symm
  have hb : argminAbs p2.lon lons = argminAbs p1.lon lons := by
    have := congrArg Prod.snd hsame
    simpa [resolve] using this.symm
  have hras : rasterize lats lons [p1, p2] =
      addAt (addAt (List.replicate lats.length
          (List.replicate lons.length 0))
        (argminAbs p1.lat lats) (argminAbs p1.lon lons) 5)
        (argminAbs p1.lat lats) (argminAbs p1.lon lons) 7 := by
    simp only [rasterize, List.foldl_cons, List.foldl_nil, ha, hb, hv1, hv2]
  have hi : argminAbs p1.lat lats < lats.length :=
    argminAbs_lt_length _ _ hlat
  have hj : argminAbs p1.lon lons < lons.length :=
    argminAbs_lt_length _ _ hlon
  have hZl : (List.replicate lats.length
      (List.replicate lons.length (0 : ℚ))).length = lats.length :=
    List.length_replicate _ _
  have hZr : ((List.replicate lats.length
      (List.replicate lons.length (0 : ℚ))).getD
        (argminAbs p1.lat lats) []).length = lons.length := by
    rw [List.getD_eq_getElem?_getD, List.getElem?_replicate, if_pos hi,
      Option.getD_some, List.length_replicate]
  constructor
  · rw [hras, get2_addAt_same _ _ _ _ (by rw [addAt_length]; omega)
      (by rw [addAt_row_length]; omega),
      get2_addAt_same _ _ _ _ (by omega) (by omega),
      get2_zeros]
    norm_num
  · intro i j hilen hjlen hne
    rw [hras, get2_addAt_other _ _ _ _ _ _ hne,
      get2_addAt_other _ _ _ _ _ _ hne, get2_zeros]

/-- C1 witness: the two example sources at (21, 4) and (19, 1) on the
grid with latitudes 10, 20, 30 and longitudes 0, 10, 20 both resolve to
cell (1, 0), which then holds 12. -/
theorem C1_rasterization_additive_witness :
    get2 (rasterize [10, 20, 30] [0, 10, 20]
      [⟨21, 4, 5⟩, ⟨19, 1, 7⟩]) (argminAbs (21 : ℚ) [10, 20, 30])
      (argminAbs (4 : ℚ) [0, 10, 20]) = 12 ∧
    argminAbs (21 : ℚ) [10, 20, 30] = 1 ∧
    argminAbs (4 : ℚ) [0, 10, 20] = 0 :=
  ⟨(C1_rasterization_additive [10, 20, 30] [0, 10, 20]
      ⟨21, 4, 5⟩ ⟨19, 1, 7⟩ (by simp) (by simp) rfl rfl
      (by norm_num [resolve, argminAbs])).1,
    by norm_num [argminAbs], by norm_num [argminAbs]⟩

/-- C3: nearest-neighbor resolution minimizes the absolute difference on
each 1-D axis with ties broken by the lowest index, and on the grid with
latitudes 10, 20, 30 and longitudes 0, 10, 20 the query (21, 4) resolves
to the index pair (1, 0). -/
theorem C3_nearest_neighbor_minimizes :
    (∀ (l : List ℚ) (q : ℚ) (k : ℕ), k < l.length →
      |l.getD (argminAbs q l) 0 - q| ≤ |l.getD k 0 - q| ∧
      (|l.getD k 0 - q| = |l.getD (argminAbs q l) 0 - q| →
        argminAbs q l ≤ k)) ∧
    resolve [10, 20, 30] [0, 10, 20] 21 4 = (1, 0) := by
  constructor
  · intro l q k hk
    exact ⟨argminAbs_min q l k hk,
      fun he => argminAbs_first q l k hk (le_of_eq he)⟩
  · norm_num [resolve, argminAbs]

/-- C3 witness: instantiation of the minimality clause on the latitude
axis of the concrete example at index 0. -/
theorem C3_nearest_neighbor_minimizes_witness :
    |([10, 20, 30] : List ℚ).getD (argminAbs 21 [10, 20, 30]) 0 - 21| ≤
      |([10, 20, 30] : List ℚ).getD 0 0 - 21| :=
  (C3_nearest_neighbor_minimizes.1 [10, 20, 30] 21 0 (by simp)).1

/-- C4: on nonempty axes every query resolves to in-range indices, and
for strictly ascending axes an out-of-bounds query clamps to the nearest
edge index; no query is rejected. -/
theorem C4_resolve_total_and_clamped (lats lons : List ℚ) (lat lon : ℚ)
    (hlat : lats ≠ []) (hlon : lons ≠ []) :
    ((resolve lats lons lat lon).1 < lats.length ∧
     (resolve lats lons lat lon).2 < lons.length) ∧
    (List.Pairwise (· < ·) lats →
      (lat ≤ lats.getD 0 0 → (resolve lats lons lat lon).1 = 0) ∧
      (lats.getD (lats.length - 1) 0 ≤ lat →
        (resolve lats lons lat lon).1 = lats.length - 1)) ∧
    (List.Pairwise (· < ·) lons →
      (lon ≤ lons.getD 0 0 → (resolve lats lons lat lon).2 = 0) ∧
      (lons.getD (lons.length - 1) 0 ≤ lon →
        (resolve lats lons lat lon).2 = lons.length - 1)) := by
  simp only [resolve]
  exact ⟨⟨argminAbs_lt_length _ _ hlat, argminAbs_lt_length _ _ hlon⟩,
    fun hs => ⟨fun hq => argminAbs_clamp_low _ _ hlat hs hq,
      fun hq => argminAbs_clamp_high _ _ hlat hs hq⟩,
    fun hs => ⟨fun hq => argminAbs_clamp_low _ _ hlon hs hq,
      fun hq => argminAbs_clamp_high _ _ hlon hs hq⟩⟩

/-- C4 witness: the far out-of-bounds query (-500, 999) on the example
grid clamps to the edge indices (0, 2) instead of failing. -/
theorem C4_resolve_total_and_clamped_witness :
    (resolve [10, 20, 30] [0, 10, 20] (-500) 999).1 = 0 ∧
    (resolve [10, 20, 30] [0, 10, 20] (-500) 999).2 = 2 :=
  ⟨((C4_resolve_total_and_clamped [10, 20, 30] [0, 10, 20] (-500) 999
      (by simp) (by simp)).2.1
      (by norm_num [List.pairwise_cons])).1 (by norm_num),
   ((C4_resolve_total_and_clamped [10, 20, 30] [0, 10, 20] (-500) 999
      (by simp) (by simp)).2.2
      (by norm_num [List.pairwise_cons])).2 (by norm_num)⟩

/-- C9 counterexample: at longitude -180, which the claim includes in
its interval, converting to the unsigned-360 convention and back yields
180, not -180, so the round trip fails there. -/
theorem C9_roundtrip_counterexample :
    lon_to180 (lon_to360 (-180)) = 180 ∧ (180 : ℚ) ≠ -180 := by
  constructor
  · norm_num [lon_to360, lon_to180]
  · norm_num

/-- C9 amended: the longitude convention round trip is exact for every
longitude strictly between -180 and 180; in particular for -3.7. -/
theorem C9_roundtrip (x : ℚ) (h1 : -180 < x) (h2 : x < 180) :
    lon_to180 (lon_to360 x) = x := by
  unfold lon_to360 lon_to180
  split_ifs <;> linarith

/-- C9 witness: the round trip at -3.7 returns -3.7 exactly. -/
theorem C9_roundtrip_witness :
    lon_to180 (lon_to360 (-37 / 10)) = -37 / 10 :=
  C9_roundtrip (-37 / 10) (by norm_num) (by norm_num)

/-- C5 counterexample: with the non-positive resolution -1 and an empty
point table, rasterization succeeds with an empty grid and in particular
does not fail with the InvalidConfigError the claim requires. -/
theorem C5_invalid_config_counterexample :
    calculate_rf_power_density [] (-1) = .ok ⟨[], [], []⟩ ∧
    calculate_rf_power_density [] (-1) ≠ .error .invalidConfigError := by
  have h1 : ⌈((90 + (-1 : ℚ)) - (-90)) / (-1)⌉ = -179 := by
    rw [show ((90 + (-1 : ℚ)) - (-90)) / (-1) = ((-179 : ℤ) : ℚ) by norm_num]
    exact Int.ceil_intCast _
  have h2 : ⌈((180 + (-1 : ℚ)) - (-180)) / (-1)⌉ = -359 := by
    rw [show ((180 + (-1 : ℚ)) - (-180)) / (-1) = ((-359 : ℤ) : ℚ) by norm_num]
    exact Int.ceil_intCast _
  have hlat : arangeQ (-90) (90 + (-1)) (-1) = [] := by
    rw [arangeQ, h1]; rfl
  have hlon : arangeQ (-180) (180 + (-1)) (-1) = [] := by
    rw [arangeQ, h2]; rfl
  have hok : calculate_rf_power_density [] (-1) = .ok ⟨[], [], []⟩ := by
    rw [calculate_rf_power_density, if_neg (by norm_num : ¬((-1 : ℚ) = 0))]
    simp only [hlat, hlon, rasterize]
    simp [List.replicate]
  exact ⟨hok, by rw [hok]; exact fun h => Except.noConfusion h⟩

/-- With a strictly positive resolution the rasterizer always reaches
the success branch. -/
theorem calculate_rf_power_density_ok (rows : List Row) (res : ℚ)
    (hpos : 0 < res) :
    calculate_rf_power_density rows res =
      .ok ⟨arangeQ (-90) (90 + res) res, arangeQ (-180) (180 + res) res,
        rasterize (arangeQ (-90) (90 + res) res)
          (arangeQ (-180) (180 + res) res)
          (rows.map (fun r =>
            ⟨r.latitude, r.longitude, r.power_w / 1000000⟩))⟩ := by
  have hlat : arangeQ (-90) (90 + res) res ≠ [] :=
    arangeQ_ne_nil _ _ _ hpos (by linarith)
  have hlon : arangeQ (-180) (180 + res) res ≠ [] :=
    arangeQ_ne_nil _ _ _ hpos (by linarith)
  simp only [calculate_rf_power_density, if_neg (by linarith : ¬(res = 0))]
  rw [if_neg]
  push_neg
  intro hempty
  exfalso
  rcases hempty with h | h
  · exact hlat (List.isEmpty_iff.mp h)
  · exact hlon (List.isEmpty_iff.mp h)

/-- C5 amended: the code never validates the resolution: a strictly
positive resolution always constructs a grid, a zero resolution fails
inside arange with ZeroDivisionError, and no input at all produces
InvalidConfigError. -/
theorem C5_no_resolution_validation (rows : List Row) (res : ℚ) :
    (0 < res → ∃ g, calculate_rf_power_density rows res = .ok g) ∧
    (res = 0 →
      calculate_rf_power_density rows res = .error .zeroDivisionError) ∧
    calculate_rf_power_density rows res ≠ .error .invalidConfigError := by
  refine ⟨?_, ?_, ?_⟩
  · intro hpos
    exact ⟨_, calculate_rf_power_density_ok rows res hpos⟩
  · intro h0
    rw [calculate_rf_power_density, if_pos h0]
  · simp only [calculate_rf_power_density]
    split
    · exact fun h => by simpa using (Except.error.injEq _ _).mp h
    · split
      · exact fun h => by simpa using (Except.error.injEq _ _).mp h
      · exact fun h => Except.noConfusion h

/-- C5 witness: with resolution 1 the grid is constructed, and at
resolution 0 the failure is ZeroDivisionError. -/
theorem C5_no_resolution_validation_witness :
    (∃ g, calculate_rf_power_density [] 1 = .ok g) ∧
    calculate_rf_power_density [] 0 = .error .zeroDivisionError :=
  ⟨(C5_no_resolution_validation [] 1).1 (by norm_num),
   (C5_no_resolution_validation [] 0).2.1 rfl⟩

/-- C6 counterexample: on an input whose only entry is NaN, the summary
statistics call fails with ValueError (the empty-array minimum
reduction), which is not the EmptyDataError the claim names. -/
theorem C6_empty_data_counterexample :
    calculate_statistics [[NFloat.nan]] = .error .valueError ∧
    NPError.valueError ≠ NPError.emptyDataError := by
  constructor
  · norm_num [calculate_statistics, validValues, List.filterMap]
  · exact fun h => NPError.noConfusion h

/-- C6 amended: the summary statistics operation flattens its input,
drops NaN entries, and when zero valid values remain it fails with
ValueError rather than returning a record; with at least one valid
value it returns the record, whose count is the number of valid
values. -/
theorem C6_statistics_empty_fails (values : List (List NFloat)) :
    (validValues values = [] →
      calculate_statistics values = .error .valueError) ∧
    (validValues values ≠ [] →
      ∃ r, calculate_statistics values = .ok r ∧
        r.count = (validValues values).length) := by
  constructor
  · intro h
    simp only [calculate_statistics]
    rw [if_pos h]
  · intro h
    simp only [calculate_statistics]
    rw [if_neg h]
    exact ⟨_, rfl, rfl⟩

/-- C6 witness: a field with one NaN and one valid value yields a
record counting exactly the one valid value. -/
theorem C6_statistics_empty_fails_witness :
    calculate_statistics [[NFloat.nan]] = .error .valueError ∧
    ∃ r, calculate_statistics [[NFloat.nan, NFloat.val 3]] = .ok r ∧
      r.count = (validValues [[NFloat.nan, NFloat.val 3]]).length :=
  ⟨(C6_statistics_empty_fails [[NFloat.nan]]).1
      (by norm_num [validValues, List.filterMap]),
   (C6_statistics_empty_fails [[NFloat.nan, NFloat.val 3]]).2
      (by norm_num [validValues, List.filterMap])⟩

theorem getD_map_lt {α β : Type} (f : α → β) (l : List α) (i : ℕ)
    (hi : i < l.length) (d : β) (d' : α) :
    (l.map f).getD i d = f (l.getD i d') := by
  rw [List.getD_eq_getElem?_getD, List.getElem?_map,
    List.getElem?_eq_getElem hi, Option.map_some', Option.getD_some,
    List.getD_eq_getElem l d' hi]

/-- C10: rasterization conserves total mass up to the fixed footprint
divisor: for every point table and positive resolution, the cells of the
produced grid sum to the total transmitter power divided by 1e6,
regardless of duplicates or out-of-domain coordinates. -/
theorem C10_mass_conservation (rows : List Row) (res : ℚ)
    (hres : 0 < res) :
    ∃ g, calculate_rf_power_density rows res = .ok g ∧
      gridSum g.density = (rows.map Row.power_w).sum / 1000000 := by
  have hlat : arangeQ (-90) (90 + res) res ≠ [] :=
    arangeQ_ne_nil _ _ _ hres (by linarith)
  have hlon : arangeQ (-180) (180 + res) res ≠ [] :=
    arangeQ_ne_nil _ _ _ hres (by linarith)
  refine ⟨_, calculate_rf_power_density_ok rows res hres, ?_⟩
  show gridSum (rasterize (arangeQ (-90) (90 + res) res)
      (arangeQ (-180) (180 + res) res)
      (rows.map (fun r => ⟨r.latitude, r.longitude, r.power_w / 1000000⟩))) =
    (rows.map Row.power_w).sum / 1000000
  rw [rasterize_gridSum _ _ hlat hlon, List.map_map]
  exact sum_map_div rows 1000000

/-- C10 witness: a single 5 W transmitter on the resolution-1 grid
yields a grid whose cells sum to exactly 5e-6. -/
theorem C10_mass_conservation_witness :
    ∃ g, calculate_rf_power_density [⟨40, -3, 5⟩] 1 = .ok g ∧
      gridSum g.density = 5 / 1000000 := by
  obtain ⟨g, hg, hs⟩ := C10_mass_conservation [⟨40, -3, 5⟩] 1 (by norm_num)
  refine ⟨g, hg, ?_⟩
  rw [hs]
  norm_num

/-- C2 counterexample: two fields with ten valid paired points that are
all (0, 0) pass the sample-size guard, but the returned Pearson
coefficient is NaN (zero variance), not a numeric value in the interval
from -1 to 1. -/
theorem C2_correlation_counterexample :
    analyze_correlation (List.replicate 10 (NFloat.val 0))
      (List.replicate 10 (NFloat.val 0)) = some ⟨RFloat.nan, 10⟩ ∧
    (validPairs (List.replicate 10 (NFloat.val 0))
      (List.replicate 10 (NFloat.val 0))).length = 10 := by
  have hvp : validPairs (List.replicate 10 (NFloat.val 0))
      (List.replicate 10 (NFloat.val 0)) =
      List.replicate 10 ((0 : ℚ), (0 : ℚ)) := by
    norm_num [validPairs, List.replicate, List.zip, List.zipWith,
      List.filterMap]
  have hsxx : sxx (List.replicate 10 ((0 : ℚ), (0 : ℚ))) = 0 := by
    norm_num [sxx, meanFst, List.replicate, Finset.sum_range_succ]
  constructor
  · simp only [analyze_correlation, hvp]
    rw [if_neg (by simp : ¬((List.replicate 10
        ((0 : ℚ), (0 : ℚ))).length < 10))]
    rw [npPearson, if_pos (Or.inl hsxx)]
    simp
  · rw [hvp]
    simp

/-- C2 amended: with fewer than 10 valid pairs after NaN-pair removal
the correlation returns None; with 10 or more valid pairs it returns a
result carrying the valid-pair count, and whenever neither series is
constant over the valid pairs the Pearson coefficient is a real number
in the interval from -1 to 1 (a constant series yields NaN instead). -/
theorem C2_correlation_guard (a b : List NFloat) :
    ((validPairs a b).length < 10 → analyze_correlation a b = none) ∧
    (10 ≤ (validPairs a b).length →
      ∃ res, analyze_correlation a b = some res ∧
        res.n_points = (validPairs a b).length ∧
        (sxx (validPairs a b) ≠ 0 → syy (validPairs a b) ≠ 0 →
          ∃ c : ℝ, res.correlation = .val c ∧ -1 ≤ c ∧ c ≤ 1)) := by
  constructor
  · intro h
    simp only [analyze_correlation]
    rw [if_pos h]
  · intro h
    simp only [analyze_correlation]
    rw [if_neg (by omega)]
    refine ⟨_, rfl, rfl, ?_⟩
    intro hx hy
    exact npPearson_bound _ hx hy

/-- C2 witness: the ten distinct pairs (0,0) to (9,9) pass the guard
and produce a coefficient that the theorem bounds inside the interval
from -1 to 1. -/
theorem C2_correlation_guard_witness :
    ∃ res, analyze_correlation
      [NFloat.val 0, NFloat.val 1, NFloat.val 2, NFloat.val 3, NFloat.val 4,
       NFloat.val 5, NFloat.val 6, NFloat.val 7, NFloat.val 8, NFloat.val 9]
      [NFloat.val 0, NFloat.val 1, NFloat.val 2, NFloat.val 3, NFloat.val 4,
       NFloat.val 5, NFloat.val 6, NFloat.val 7, NFloat.val 8, NFloat.val 9] =
      some res ∧ res.n_points = 10 ∧
      ∃ c : ℝ, res.correlation = .val c ∧ -1 ≤ c ∧ c ≤ 1 := by
  have hvp : validPairs
      [NFloat.val 0, NFloat.val 1, NFloat.val 2, NFloat.val 3, NFloat.val 4,
       NFloat.val 5, NFloat.val 6, NFloat.val 7, NFloat.val 8, NFloat.val 9]
      [NFloat.val 0, NFloat.val 1, NFloat.val 2, NFloat.val 3, NFloat.val 4,
       NFloat.val 5, NFloat.val 6, NFloat.val 7, NFloat.val 8, NFloat.val 9] =
      [(0, 0), (1, 1), (2, 2), (3, 3), (4, 4), (5, 5), (6, 6), (7, 7),
       (8, 8), (9, 9)] := by
    norm_num [validPairs, List.zip, List.zipWith, List.filterMap]
  obtain ⟨res, h1, h2, h3⟩ := (C2_correlation_guard _ _).2
    (by rw [hvp]; simp)
  refine ⟨res, h1, by rw [h2, hvp]; simp, h3 ?_ ?_⟩
  · rw [hvp]
    norm_num [sxx, meanFst, Finset.sum_range_succ]
  · rw [hvp]
    norm_num [syy, meanSnd, Finset.sum_range_succ]

/-- C7 counterexample: two copies of a non-constant field with exactly
10 valid paired points produce a correlation matrix, but its entries are
NaN, because the code requires strictly more than 10 valid points; the
claim expects a numeric entry at 10 or more. -/
theorem C7_matrix_threshold_counterexample :
    create_heatmap_correlation
      [[NFloat.val 0, NFloat.val 1, NFloat.val 2, NFloat.val 3,
        NFloat.val 4, NFloat.val 5, NFloat.val 6, NFloat.val 7,
        NFloat.val 8, NFloat.val 9],
       [NFloat.val 0, NFloat.val 1, NFloat.val 2, NFloat.val 3,
        NFloat.val 4, NFloat.val 5, NFloat.val 6, NFloat.val 7,
        NFloat.val 8, NFloat.val 9]] =
      some [[RFloat.nan, RFloat.nan], [RFloat.nan, RFloat.nan]] ∧
    (validPairs
      [NFloat.val 0, NFloat.val 1, NFloat.val 2, NFloat.val 3,
       NFloat.val 4, NFloat.val 5, NFloat.val 6, NFloat.val 7,
       NFloat.val 8, NFloat.val 9]
      [NFloat.val 0, NFloat.val 1, NFloat.val 2, NFloat.val 3,
       NFloat.val 4, NFloat.val 5, NFloat.val 6, NFloat.val 7,
       NFloat.val 8, NFloat.val 9]).length = 10 := by
  have hlen : (validPairs
      [NFloat.val 0, NFloat.val 1, NFloat.val 2, NFloat.val 3,
       NFloat.val 4, NFloat.val 5, NFloat.val 6, NFloat.val 7,
       NFloat.val 8, NFloat.val 9]
      [NFloat.val 0, NFloat.val 1, NFloat.val 2, NFloat.val 3,
       NFloat.val 4, NFloat.val 5, NFloat.val 6, NFloat.val 7,
       NFloat.val 8, NFloat.val 9]).length = 10 := by
    norm_num [validPairs, List.zip, List.zipWith, List.filterMap]
  have hent : corrEntry
      [NFloat.val 0, NFloat.val 1, NFloat.val 2, NFloat.val 3,
       NFloat.val 4, NFloat.val 5, NFloat.val 6, NFloat.val 7,
       NFloat.val 8, NFloat.val 9]
      [NFloat.val 0, NFloat.val 1, NFloat.val 2, NFloat.val 3,
       NFloat.val 4, NFloat.val 5, NFloat.val 6, NFloat.val 7,
       NFloat.val 8, NFloat.val 9] = RFloat.nan := by
    simp only [corrEntry]
    rw [if_neg (by omega)]
  constructor
  · simp only [create_heatmap_correlation]
    rw [if_neg (by simp)]
    simp only [List.map_cons, List.map_nil, hent]
  · exact hlen

/-- C7 amended: the correlation matrix is always produced for two or
more fields, each entry is the pairwise corrEntry of its two fields, an
entry with 10 or fewer valid pairs (including exactly 10) is NaN, and an
entry with strictly more than 10 valid pairs and both series
non-constant is a numeric coefficient in the interval from -1 to 1. -/
theorem C7_matrix_threshold (fields : List (List NFloat)) :
    (2 ≤ fields.length →
      ∃ M, create_heatmap_correlation fields = some M ∧
        M.length = fields.length ∧
        ∀ i j, i < fields.length → j < fields.length →
          (M.getD i []).getD j RFloat.nan =
            corrEntry (fields.getD i []) (fields.getD j [])) ∧
    (∀ a b : List NFloat, (validPairs a b).length ≤ 10 →
      corrEntry a b = RFloat.nan) ∧
    (∀ a b : List NFloat, 10 < (validPairs a b).length →
      sxx (validPairs a b) ≠ 0 → syy (validPairs a b) ≠ 0 →
      ∃ c : ℝ, corrEntry a b = .val c ∧ -1 ≤ c ∧ c ≤ 1) := by
  refine ⟨?_, ?_, ?_⟩
  · intro h2
    refine ⟨fields.map (fun a => fields.map (fun b => corrEntry a b)),
      ?_, by simp, ?_⟩
    · simp only [create_heatmap_correlation]
      rw [if_neg (by omega)]
    · intro i j hi hj
      rw [getD_map_lt _ fields i hi [] [],
        getD_map_lt _ fields j hj RFloat.nan []]
  · intro a b hle
    simp only [corrEntry]
    rw [if_neg (by omega)]
  · intro a b hgt hx hy
    simp only [corrEntry]
    rw [if_pos hgt]
    exact npPearson_bound _ hx hy

/-- C7 witness: two copies of a non-constant field with 11 valid pairs
produce a matrix whose pairwise entry is a numeric coefficient inside
the interval from -1 to 1. -/
theorem C7_matrix_threshold_witness :
    (∃ M, create_heatmap_correlation
      [[NFloat.val 0, NFloat.val 1, NFloat.val 2, NFloat.val 3,
        NFloat.val 4, NFloat.val 5, NFloat.val 6, NFloat.val 7,
        NFloat.val 8, NFloat.val 9, NFloat.val 10],
       [NFloat.val 0, NFloat.val 1, NFloat.val 2, NFloat.val 3,
        NFloat.val 4, NFloat.val 5, NFloat.val 6, NFloat.val 7,
        NFloat.val 8, NFloat.val 9, NFloat.val 10]] = some M) ∧
    ∃ c : ℝ, corrEntry
      [NFloat.val 0, NFloat.val 1, NFloat.val 2, NFloat.val 3,
       NFloat.val 4, NFloat.val 5, NFloat.val 6, NFloat.val 7,
       NFloat.val 8, NFloat.val 9, NFloat.val 10]
      [NFloat.val 0, NFloat.val 1, NFloat.val 2, NFloat.val 3,
       NFloat.val 4, NFloat.val 5, NFloat.val 6, NFloat.val 7,
       NFloat.val 8, NFloat.val 9, NFloat.val 10] = .val c ∧
      -1 ≤ c ∧ c ≤ 1 := by
  have hvp : validPairs
      [NFloat.val 0, NFloat.val 1, NFloat.val 2, NFloat.val 3,
       NFloat.val 4, NFloat.val 5, NFloat.val 6, NFloat.val 7,
       NFloat.val 8, NFloat.val 9, NFloat.val 10]
      [NFloat.val 0, NFloat.val 1, NFloat.val 2, NFloat.val 3,
       NFloat.val 4, NFloat.val 5, NFloat.val 6, NFloat.val 7,
       NFloat.val 8, NFloat.val 9, NFloat.val 10] =
      [(0, 0), (1, 1), (2, 2), (3, 3), (4, 4), (5, 5), (6, 6), (7, 7),
       (8, 8), (9, 9), (10, 10)] := by
    norm_num [validPairs, List.zip, List.zipWith, List.filterMap]
  constructor
  · obtain ⟨M, hM, _, _⟩ := (C7_matrix_threshold
      [[NFloat.val 0, NFloat.val 1, NFloat.val 2, NFloat.val 3,
        NFloat.val 4, NFloat.val 5, NFloat.val 6, NFloat.val 7,
        NFloat.val 8, NFloat.val 9, NFloat.val 10],
       [NFloat.val 0, NFloat.val 1, NFloat.val 2, NFloat.val 3,
        NFloat.val 4, NFloat.val 5, NFloat.val 6, NFloat.val 7,
        NFloat.val 8, NFloat.val 9, NFloat.val 10]]).1
      (by norm_num [List.length_cons])
    exact ⟨M, hM⟩
  · refine (C7_matrix_threshold []).2.2 _ _ (by rw [hvp]; simp) ?_ ?_
    · rw [hvp]
      norm_num [sxx, meanFst, Finset.sum_range_succ]
    · rw [hvp]
      norm_num [syy, meanSnd, Finset.sum_range_succ]

